import Mathlib

/-!
Verification of the knowbe4-data-archiver retrieval-and-archival pipeline.

The Go sources under `archiver/` are shallowly embedded below:

* machine integers (`int`) become `Int` or `Nat` (no overflow is relevant:
  the program only counts records, pages and errors);
* `time.Time` values become an abstract tick type `GoTime := Int` (they are
  only carried, never computed with);
* `float64` fields become `Rat` (carried, never computed with);
* `*T` becomes `Option T`;
* fallible Go functions returning `(T, error)` become `Except String T`;
* the HTTP transport and the JSON page decoder are oracle parameters, so a
  pagination loop is a function of the oracle, and the possibly
  non-terminating `for` loops become fuel-indexed functions returning
  `Option` (`none` means the loop has not finished within the given fuel);
* the goroutine fan-out of `saveRecipientsToS3Async` is embedded as a
  deterministic event trace: the Go code launches one goroutine and then
  immediately performs a blocking receive on the shared unbuffered channel,
  so at each receive exactly one sender is outstanding and the observable
  interleaving is uniquely determined.
-/

/-! ## Constants (archiver/main.go) -/

def countPerPage : Nat := 500

def maxErrorsAllowed : Nat := 5

/-- workingGroupCount is the local constant of saveRecipientsToS3Async: the
batch width of the recipient fan-out. -/
def workingGroupCount : Nat := 5

/-! ## Data model (archiver/main.go, type declarations)

`GoTime` models `time.Time` as an abstract instant; the program never
computes with times, it only copies them between records. -/

abbrev GoTime := Int

/-- GroupRef is the anonymous Go struct `{GroupID int; Name string}` used in
the `Groups` list of a security test (json tags `group_id`, `name`). -/
structure GroupRef where
  groupID : Int
  name : String
  deriving DecidableEq, Repr

/-- CategoryRef is the anonymous Go struct `{CategoryID int; Name string}`
used in the `Categories` list of a security test. -/
structure CategoryRef where
  categoryID : Int
  name : String
  deriving DecidableEq, Repr

/-- NamedRef is the anonymous Go struct `{ID int; Name string}` used for the
`Template` and `LandingPage` sub-objects. -/
structure NamedRef where
  id : Int
  name : String
  deriving DecidableEq, Repr

/-- UserRef is the anonymous Go struct nested in a recipient under the
`user` key. -/
structure UserRef where
  id : Int
  activeDirectoryGUID : Option String
  firstName : String
  lastName : String
  email : String
  deriving DecidableEq, Repr

/-- KnowBe4SecurityTest embeds the Go struct of the same name.  The two
revisions concatenated in `archiver/main.go` differ only in whether
`StartedAt` is a pointer and whether the `Groups` element struct is named
`GroupSummary`; neither difference matters to any claim, so one structure
serves both. -/
structure KnowBe4SecurityTest where
  campaignID : Int
  pstID : Int
  status : String
  name : String
  groups : List GroupRef
  phishPronePercentage : Rat
  startedAt : GoTime
  duration : Int
  categories : List CategoryRef
  template : NamedRef
  landingPage : NamedRef
  scheduledCount : Int
  deliveredCount : Int
  openedCount : Int
  clickedCount : Int
  repliedCount : Int
  attachmentOpenCount : Int
  macroEnabledCount : Int
  dataEnteredCount : Int
  vulnerablePluginCount : Int
  exploitedCount : Int
  reportedCount : Int
  bouncedCount : Int
  deriving DecidableEq, Repr

/-- KnowBe4FlatSecurityTest embeds the flat projection struct: the lists of
named sub-objects have become single strings (json tags `all_groups`,
`all_categories`) and the singular `Template`/`LandingPage` sub-objects have
become prefixed scalar fields. -/
structure KnowBe4FlatSecurityTest where
  campaignID : Int
  pstID : Int
  status : String
  name : String
  groups : String
  phishPronePercentage : Rat
  startedAt : GoTime
  duration : Int
  categories : String
  templateID : Int
  templateName : String
  landingPageID : Int
  landingPageName : String
  scheduledCount : Int
  deliveredCount : Int
  openedCount : Int
  clickedCount : Int
  repliedCount : Int
  attachmentOpenCount : Int
  macroEnabledCount : Int
  dataEnteredCount : Int
  vulnerablePluginCount : Int
  exploitedCount : Int
  reportedCount : Int
  bouncedCount : Int
  deriving DecidableEq, Repr

/-- KnowBe4Recipient embeds the Go struct of the same name (one targeted
person's interaction record within one security test). -/
structure KnowBe4Recipient where
  recipientID : Int
  pstID : Int
  user : UserRef
  template : NamedRef
  scheduledAt : GoTime
  deliveredAt : GoTime
  openedAt : GoTime
  clickedAt : GoTime
  repliedAt : Option GoTime
  attachmentOpenedAt : Option GoTime
  macroEnabledAt : Option GoTime
  dataEnteredAt : GoTime
  vulnerablePluginsAt : Option GoTime
  exploitedAt : Option GoTime
  reportedAt : Option GoTime
  bouncedAt : Option GoTime
  ip : String
  ipLocation : String
  browser : String
  browserVersion : String
  os : String
  deriving DecidableEq, Repr

/-- KnowBe4FlatRecipient embeds the flat projection of a recipient: the
nested `user` and `template` sub-objects have become prefixed scalar
fields. -/
structure KnowBe4FlatRecipient where
  recipientID : Int
  pstID : Int
  userID : Int
  userActiveDirectoryGUID : Option String
  userFirstName : String
  userLastName : String
  userEmail : String
  templateID : Int
  templateName : String
  scheduledAt : GoTime
  deliveredAt : GoTime
  openedAt : GoTime
  clickedAt : GoTime
  repliedAt : Option GoTime
  attachmentOpenedAt : Option GoTime
  macroEnabledAt : Option GoTime
  dataEnteredAt : GoTime
  vulnerablePluginsAt : Option GoTime
  exploitedAt : Option GoTime
  reportedAt : Option GoTime
  bouncedAt : Option GoTime
  ip : String
  ipLocation : String
  browser : String
  browserVersion : String
  os : String
  deriving DecidableEq, Repr

/-! ## Record flattener (archiver/main.go, flattenTest / flattenRecipient) -/

/-- flattenGroups embeds the Go loop

    flatGroups := ""
    for i := range groups { flatGroups += groups[i].Name }

Note the loop body appends the bare name with no separator. -/
def flattenGroups (groups : List GroupRef) : String :=
  groups.foldl (fun flatGroups g => flatGroups ++ g.name) ""

/-- flattenCategories embeds the analogous loop over the categories list,
again appending bare names with no separator. -/
def flattenCategories (categories : List CategoryRef) : String :=
  categories.foldl (fun flatCategories c => flatCategories ++ c.name) ""

/-- convertTestToFlat models `ConvertToOtherType(test, &flatTest)`, the
json-marshal/unmarshal round trip from `KnowBe4SecurityTest` into
`KnowBe4FlatSecurityTest`.  A field is copied when its json tag appears in
both structs (`campaign_id`, `pst_id`, `status`, `name`,
`phish_prone_percentage`, `started_at`, `duration` and the twelve counters);
every flat-only field (`all_groups`, `all_categories`, `template_id`,
`template_name`, `landing_page_id`, `landing_page_name`) has no source tag
and is left at its zero value. -/
def convertTestToFlat (test : KnowBe4SecurityTest) : KnowBe4FlatSecurityTest where
  campaignID := test.campaignID
  pstID := test.pstID
  status := test.status
  name := test.name
  groups := ""
  phishPronePercentage := test.phishPronePercentage
  startedAt := test.startedAt
  duration := test.duration
  categories := ""
  templateID := 0
  templateName := ""
  landingPageID := 0
  landingPageName := ""
  scheduledCount := test.scheduledCount
  deliveredCount := test.deliveredCount
  openedCount := test.openedCount
  clickedCount := test.clickedCount
  repliedCount := test.repliedCount
  attachmentOpenCount := test.attachmentOpenCount
  macroEnabledCount := test.macroEnabledCount
  dataEnteredCount := test.dataEnteredCount
  vulnerablePluginCount := test.vulnerablePluginCount
  exploitedCount := test.exploitedCount
  reportedCount := test.reportedCount
  bouncedCount := test.bouncedCount

/-- flattenTest embeds the Go function of the same name: the generic copy
step followed by the explicit assignments of the flattened and promoted
fields. -/
def flattenTest (test : KnowBe4SecurityTest) : KnowBe4FlatSecurityTest :=
  let flatTest := convertTestToFlat test
  { flatTest with
    groups := flattenGroups test.groups
    categories := flattenCategories test.categories
    templateID := test.template.id
    templateName := test.template.name
    landingPageID := test.landingPage.id
    landingPageName := test.landingPage.name }

/-- convertRecipientToFlat models `ConvertToOtherType(recipient,
&flatRecipient)`: shared-tag fields are copied, flat-only fields (the
`user_*` and `template_*` promotions) are left at their zero values. -/
def convertRecipientToFlat (recipient : KnowBe4Recipient) : KnowBe4FlatRecipient where
  recipientID := recipient.recipientID
  pstID := recipient.pstID
  userID := 0
  userActiveDirectoryGUID := none
  userFirstName := ""
  userLastName := ""
  userEmail := ""
  templateID := 0
  templateName := ""
  scheduledAt := recipient.scheduledAt
  deliveredAt := recipient.deliveredAt
  openedAt := recipient.openedAt
  clickedAt := recipient.clickedAt
  repliedAt := recipient.repliedAt
  attachmentOpenedAt := recipient.attachmentOpenedAt
  macroEnabledAt := recipient.macroEnabledAt
  dataEnteredAt := recipient.dataEnteredAt
  vulnerablePluginsAt := recipient.vulnerablePluginsAt
  exploitedAt := recipient.exploitedAt
  reportedAt := recipient.reportedAt
  bouncedAt := recipient.bouncedAt
  ip := recipient.ip
  ipLocation := recipient.ipLocation
  browser := recipient.browser
  browserVersion := recipient.browserVersion
  os := recipient.os

/-- flattenRecipient embeds the Go function of the same name. -/
def flattenRecipient (recipient : KnowBe4Recipient) : KnowBe4FlatRecipient :=
  let flatRecipient := convertRecipientToFlat recipient
  { flatRecipient with
    userID := recipient.user.id
    userActiveDirectoryGUID := recipient.user.activeDirectoryGUID
    userFirstName := recipient.user.firstName
    userLastName := recipient.user.lastName
    userEmail := recipient.user.email
    templateID := recipient.template.id
    templateName := recipient.template.name }

/-- flattenTests maps flattenTest over a list, as the Go loop does. -/
def flattenTests (tests : List KnowBe4SecurityTest) : List KnowBe4FlatSecurityTest :=
  tests.map flattenTest

/-- flattenRecipients maps flattenRecipient over a list. -/
def flattenRecipients (recipients : List KnowBe4Recipient) : List KnowBe4FlatRecipient :=
  recipients.map flattenRecipient

/-! ## API client (archiver/main.go, callAPI) -/

/-- HttpResponse models the part of `*http.Response` the program touches:
the numeric status code, the status line, the body payload (`body` is what
`ioutil.ReadAll(resp.Body)` would return; the page functions decode it),
and `bodyStreamRepr`, the string that the `%s` verb of `fmt` produces for
the `resp.Body` field itself.  `resp.Body` is an `io.ReadCloser` stream
handle, so `%s` yields a reflection rendering of the handle struct (of the
shape `&\x7b...\x7d` with internal pointers), never the payload bytes; the
two fields are therefore unrelated strings supplied by the oracle. -/
structure HttpResponse where
  statusCode : Nat
  status : String
  body : String
  bodyStreamRepr : String
  deriving DecidableEq, Repr

/-- TransportResult models the outcome of `client.Do(req)`: either a
response or a transport-level failure. -/
inductive TransportResult where
  | ok (resp : HttpResponse)
  | failed (msg : String)
  deriving DecidableEq, Repr

/-- callAPI embeds the Go function of the same name, applied to the outcome
of the underlying transport.  `url` is `config.APIBaseURL + "/" + urlPath`,
exactly the string interpolated into the error message in the source.  The
source formats the error with

    fmt.Errorf("API returned an error. URL: %s, Code: %v, Status: %s Body: %s",
      url, resp.StatusCode, resp.Status, resp.Body)

where `resp.Body` is the unread `io.ReadCloser`, so the `Body:` segment of
the message is the stream-handle rendering `bodyStreamRepr`, not the
payload `body` (which only `ioutil.ReadAll` in the page functions ever
reads). -/
def callAPI (url : String) (result : TransportResult) : Except String HttpResponse :=
  match result with
  | .failed msg => .error ("error making http request: " ++ msg)
  | .ok resp =>
    if 300 ≤ resp.statusCode then
      .error ("API returned an error. URL: " ++ url ++ ", Code: " ++
        toString resp.statusCode ++ ", Status: " ++ resp.status ++
        " Body: " ++ resp.bodyStreamRepr)
    else
      .ok resp

/-- charsStartWith decides whether the first list of characters begins the
second. -/
def charsStartWith : List Char → List Char → Bool
  | [], _ => true
  | _ :: _, [] => false
  | p :: ps, c :: cs => (p = c) && charsStartWith ps cs

/-- charsContain decides whether the first list of characters occurs
contiguously inside the second; it formalizes "the message includes". -/
def charsContain (pat : List Char) : List Char → Bool
  | [] => charsStartWith pat []
  | c :: rest => charsStartWith pat (c :: rest) || charsContain pat rest

/-! ## Paginated collector (archiver/main.go, getAllSecurityTests and
getAllRecipientsForSecurityTest; getAllCampaigns and getAllGroups repeat
the same loop) -/

/-- PageRequest records one issued page request: the `page` and `per_page`
query parameters the loop body passes to callAPI. -/
structure PageRequest where
  page : Nat
  perPage : Nat
  deriving DecidableEq, Repr

/-- collectAllPages embeds the shared pagination loop

    for i := 1; ; i++ {
      data, next, err := getPage(i, config)
      if err != nil { return nil, nil, wrapped(err) }
      all = append(all, next...)
      if len(next) < countPerPage { break }
    }

parameterized by the per-resource error wrapper and by the page oracle
`fetchReq` (callAPI plus json decode).  The loop has no bound of its own,
so the embedding is fuel-indexed: the second component is `none` when the
loop has not finished within `fuel` iterations, and otherwise carries the
Go return value (the error, or the accumulated records).  The first
component lists the requests issued, in order. -/
def collectAllPages (wrapErr : Nat → String → String)
    (fetchReq : PageRequest → Except String (List α)) :
    Nat → Nat → List PageRequest × Option (Except String (List α))
  | 0, _ => ([], none)
  | fuel + 1, i =>
    match fetchReq ⟨i, countPerPage⟩ with
    | .error e => ([⟨i, countPerPage⟩], some (.error (wrapErr i e)))
    | .ok pg =>
      if pg.length < countPerPage then
        ([⟨i, countPerPage⟩], some (.ok pg))
      else
        let rest := collectAllPages wrapErr fetchReq fuel (i + 1)
        (⟨i, countPerPage⟩ :: rest.1,
          match rest.2 with
          | none => none
          | some (.error e) => some (.error e)
          | some (.ok tail) => some (.ok (pg ++ tail)))

/-- wrapTestsPageErr is the error wrapper of getAllSecurityTests:
`"error fetching page %v ... %s"`. -/
def wrapTestsPageErr (i : Nat) (e : String) : String :=
  "error fetching page " ++ toString i ++ " ... " ++ e

/-- wrapRecipientsPageErr is the error wrapper of
getAllRecipientsForSecurityTest:
`"error fetching recipients for security test %v page %v ... %s"`. -/
def wrapRecipientsPageErr (secTestID : Int) (i : Nat) (e : String) : String :=
  "error fetching recipients for security test " ++ toString secTestID ++
    " page " ++ toString i ++ " ... " ++ e

/-- getAllSecurityTests embeds the Go function of the same name: the
pagination loop started at page 1 over the security-tests page oracle. -/
def getAllSecurityTests (fetchReq : PageRequest → Except String (List KnowBe4SecurityTest))
    (fuel : Nat) : List PageRequest × Option (Except String (List KnowBe4SecurityTest)) :=
  collectAllPages wrapTestsPageErr fetchReq fuel 1

/-- getAllRecipientsForSecurityTest embeds the Go function of the same
name: the pagination loop started at page 1 over the recipients page
oracle of one security test. -/
def getAllRecipientsForSecurityTest (secTestID : Int)
    (fetchReq : PageRequest → Except String (List KnowBe4Recipient))
    (fuel : Nat) : List PageRequest × Option (Except String (List KnowBe4Recipient)) :=
  collectAllPages (wrapRecipientsPageErr secTestID) fetchReq fuel 1

/-- fetchPageViaAPI composes one page request out of the pieces the Go page
functions use: callAPI on the transport oracle, then the body decoder, with
decode failures wrapped by `wrapDecodeErr` as in getSecurityTestsPage and
getRecipientsPage. -/
def fetchPageViaAPI (url : String) (transport : PageRequest → TransportResult)
    (decodeBody : String → Except String (List α)) (wrapDecodeErr : String → String)
    (req : PageRequest) : Except String (List α) :=
  match callAPI url (transport req) with
  | .error e => .error e
  | .ok resp =>
    match decodeBody resp.body with
    | .error e => .error (wrapDecodeErr e)
    | .ok records => .ok records

/-- sampleRecipient is the repository fixture `exampleRecipient`
(fixtures_test.go), used as a concrete record in witnesses. -/
def sampleRecipient : KnowBe4Recipient where
  recipientID := 3077742
  pstID := 14240
  user := ⟨264215, none, "Bob", "Ross", "bob.r@kb4-demo.com"⟩
  template := ⟨2, "Your Amazon Order"⟩
  scheduledAt := 0
  deliveredAt := 0
  openedAt := 0
  clickedAt := 0
  repliedAt := some 0
  attachmentOpenedAt := none
  macroEnabledAt := none
  dataEnteredAt := 0
  vulnerablePluginsAt := none
  exploitedAt := none
  reportedAt := none
  bouncedAt := none
  ip := "XX.XX.XXX.XXX"
  ipLocation := "St.Petersburg, FL"
  browser := "Chrome"
  browserVersion := "48.0"
  os := "MacOSX"

/-! ## Line-delimited encoder (archiver/main.go, marshalJsonLines)

The Go function takes an `interface\x7b\x7d` and type-asserts it to
`[]interface\x7b\x7d`; each row is marshalled independently with
`json.Marshal` and written to the buffer followed by one newline.  JSON
values are modelled by the mutual inductives below, and `json.Marshal` by a
standard JSON printer with the escaping relevant here (quote, backslash and
control characters), which is what guarantees one record per line. -/

mutual
/-- Json models one Go value as seen by `json.Marshal`. -/
inductive Json where
  | null
  | bool (b : Bool)
  | num (n : Int)
  | str (s : String)
  | arr (elems : JsonList)
  | obj (fields : JsonFields)
  deriving DecidableEq, Repr

/-- JsonList is a list of Json values (mutual with Json so that all
recursion below is structural). -/
inductive JsonList where
  | nil
  | cons (hd : Json) (tl : JsonList)
  deriving DecidableEq, Repr

/-- JsonFields is an association list of object fields. -/
inductive JsonFields where
  | nil
  | cons (key : String) (val : Json) (tl : JsonFields)
  deriving DecidableEq, Repr
end

/-- escapeChar maps one character of a JSON string to its escaped form, as
`json.Marshal` does for the characters that could break the one-line
invariant. -/
def escapeChar (c : Char) : List Char :=
  if c = '"' then ['\\', '"']
  else if c = '\\' then ['\\', '\\']
  else if c = '\n' then ['\\', 'n']
  else if c = '\t' then ['\\', 't']
  else if c = '\r' then ['\\', 'r']
  else [c]

/-- escapeString escapes every character of a JSON string literal. -/
def escapeString (s : String) : String :=
  ⟨s.data.flatMap escapeChar⟩

mutual
/-- Json.encode prints one JSON value on a single line, modelling
`json.Marshal`. -/
def Json.encode : Json → String
  | .null => "null"
  | .bool b => cond b "true" "false"
  | .num n => toString n
  | .str s => "\"" ++ escapeString s ++ "\""
  | .arr elems => "[" ++ JsonList.encodeSep elems ++ "]"
  | .obj fields => "\x7b" ++ JsonFields.encodeSep fields ++ "\x7d"

/-- JsonList.encodeSep prints array elements separated by commas. -/
def JsonList.encodeSep : JsonList → String
  | .nil => ""
  | .cons hd .nil => Json.encode hd
  | .cons hd (.cons hd2 tl) =>
    Json.encode hd ++ "," ++ JsonList.encodeSep (.cons hd2 tl)

/-- JsonFields.encodeSep prints object fields separated by commas. -/
def JsonFields.encodeSep : JsonFields → String
  | .nil => ""
  | .cons key val .nil => "\"" ++ escapeString key ++ "\":" ++ Json.encode val
  | .cons key val (.cons k2 v2 tl) =>
    "\"" ++ escapeString key ++ "\":" ++ Json.encode val ++ "," ++
      JsonFields.encodeSep (.cons k2 v2 tl)
end

/-- JsonList.toList turns the mutual list type into an ordinary list. -/
def JsonList.toList : JsonList → List Json
  | .nil => []
  | .cons hd tl => hd :: JsonList.toList tl

/-- GoValue models the dynamic `interface\x7b\x7d` argument of
marshalJsonLines as the type assertion sees it: the nil interface, a
`[]interface\x7b\x7d` slice, or any other non-nil value. -/
inductive GoValue where
  | goNil
  | goList (elems : JsonList)
  | goOther (v : Json)
  deriving DecidableEq, Repr

/-- writeRows embeds the buffer loop of marshalJsonLines:
each row is marshalled and appended to the buffer with a trailing
newline. -/
def writeRows : JsonList → String → String
  | .nil, buf => buf
  | .cons row tl, buf => writeRows tl (buf ++ Json.encode row ++ "\n")

/-- marshalJsonLines embeds the Go function of the same name: nil input and
non-slice input are usage errors; a slice is written row by row. -/
def marshalJsonLines : GoValue → Except String String
  | .goNil => .error "marshalJsonLines nil input"
  | .goOther _ => .error "marshalJsonLines input is not []interface\x7b\x7d"
  | .goList elems => .ok (writeRows elems "")

/-! ## Concurrent recipient archiver (archiver/main.go,
saveRecipientsToS3Async)

The Go loop launches one goroutine per security test and immediately
performs a blocking receive on the shared unbuffered channel `c`:

    for i := 0; i < workingGroupCount; i++ {
      stIndex += 1
      if stIndex >= stCount { allDone = true; break }
      nextID := secTests[stIndex].PstID
      wg.Add(1)
      go saveRecipientsForSecTest(nextID, config, &wg, c)
      newErr := <-c
      if newErr != nil { log.Print(...); errCount += 1 }
    }
    wg.Wait()
    if errCount >= maxErrorsAllowed { lastErr = fmt.Errorf(...) }
    if allDone { break }

Each goroutine sends exactly one message, and at each receive exactly one
launched goroutine has not yet sent, so the observable event order is
deterministic: launch of task i, then receipt of the completion of task i.
The per-task outcome is the oracle `taskFails`, keyed by the PstID passed
to the goroutine. -/

/-- AsyncEvent is one observable event of the fan-out: the launch of a
goroutine for a PstID, or the receipt of its completion message. -/
inductive AsyncEvent where
  | launch (pstID : Int)
  | recvMsg (pstID : Int) (failed : Bool)
  deriving DecidableEq, Repr

/-- defaultSecurityTest is the zero value of the security-test struct, used
only as the (never reached) default of bounds-checked indexing. -/
def defaultSecurityTest : KnowBe4SecurityTest where
  campaignID := 0
  pstID := 0
  status := ""
  name := ""
  groups := []
  phishPronePercentage := 0
  startedAt := 0
  duration := 0
  categories := []
  template := ⟨0, ""⟩
  landingPage := ⟨0, ""⟩
  scheduledCount := 0
  deliveredCount := 0
  openedCount := 0
  clickedCount := 0
  repliedCount := 0
  attachmentOpenCount := 0
  macroEnabledCount := 0
  dataEnteredCount := 0
  vulnerablePluginCount := 0
  exploitedCount := 0
  reportedCount := 0
  bouncedCount := 0

/-- innerBatch embeds the inner `for i := 0; i < workingGroupCount; i++`
loop, counting the remaining iterations down.  It returns the next value
of `stIndex` (as the count of tasks launched so far), the updated error
counter, the events of the batch in order, and the `allDone` flag. -/
def innerBatch (taskFails : Int → Bool) (secTests : List KnowBe4SecurityTest) :
    Nat → Nat → Nat → Nat × Nat × List AsyncEvent × Bool
  | 0, next, errCount => (next, errCount, [], false)
  | i + 1, next, errCount =>
    if secTests.length ≤ next then (next, errCount, [], true)
    else
      let pid := (secTests.getD next defaultSecurityTest).pstID
      let failed := taskFails pid
      let errCount2 := if failed then errCount + 1 else errCount
      let rest := innerBatch taskFails secTests i (next + 1) errCount2
      (rest.1, rest.2.1, .launch pid :: .recvMsg pid failed :: rest.2.2.1, rest.2.2.2)

/-- tooManyErrorsMsg is the error text of
`fmt.Errorf("aborting due to getting too many (%v) errors", errCount)`. -/
def tooManyErrorsMsg (errCount : Nat) : String :=
  "aborting due to getting too many (" ++ toString errCount ++ ") errors"

/-- outerLoop embeds the outer `for` of saveRecipientsToS3Async: run one
batch, set `lastErr` when the cumulative error counter has reached the
budget, stop only when the test list is exhausted.  The loop has no bound
of its own, so it is fuel-indexed; `none` marks fuel exhaustion (the
function below always supplies enough). -/
def outerLoop (taskFails : Int → Bool) (secTests : List KnowBe4SecurityTest) :
    Nat → Nat → Nat → Option String → Option (List AsyncEvent × Nat × Option String)
  | 0, _, _, _ => none
  | fuel + 1, next, errCount, lastErr =>
    let batch := innerBatch taskFails secTests workingGroupCount next errCount
    let lastErr2 :=
      if maxErrorsAllowed ≤ batch.2.1 then some (tooManyErrorsMsg batch.2.1) else lastErr
    if batch.2.2.2 then
      some (batch.2.2.1, batch.2.1, lastErr2)
    else
      match outerLoop taskFails secTests fuel batch.1 batch.2.1 lastErr2 with
      | none => none
      | some (evts, e2, l2) => some (batch.2.2.1 ++ evts, e2, l2)

/-- saveRecipientsToS3Async embeds the Go function of the same name as the
event trace, final error counter and final `lastErr` of the run.  A fuel
of one more than the number of tests always suffices (each non-final batch
launches five tasks). -/
def saveRecipientsToS3Async (taskFails : Int → Bool)
    (secTests : List KnowBe4SecurityTest) :
    Option (List AsyncEvent × Nat × Option String) :=
  outerLoop taskFails secTests (secTests.length + 1) 0 0 none

/-- taskEvents lists the events generated for tasks `next..next+count-1`:
one launch immediately followed by one receive per task. -/
def taskEvents (taskFails : Int → Bool) (secTests : List KnowBe4SecurityTest)
    (next count : Nat) : List AsyncEvent :=
  (List.range' next count).flatMap (fun idx =>
    let pid := (secTests.getD idx defaultSecurityTest).pstID
    [.launch pid, .recvMsg pid (taskFails pid)])

/-- failCount counts the failing tasks among `next..next+count-1`. -/
def failCount (taskFails : Int → Bool) (secTests : List KnowBe4SecurityTest)
    (next count : Nat) : Nat :=
  ((List.range' next count).map
    (fun idx => (secTests.getD idx defaultSecurityTest).pstID)).countP taskFails

/-- launchedIds lists the PstIDs of all launch events of a trace, in
order. -/
def launchedIds (trace : List AsyncEvent) : List Int :=
  trace.filterMap (fun e =>
    match e with
    | .launch pid => some pid
    | .recvMsg _ _ => none)

/-- recvBeforeLaunch detects a completion message consumed before a later
task launch. -/
def recvBeforeLaunch : List AsyncEvent → Bool
  | [] => false
  | .launch _ :: rest => recvBeforeLaunch rest
  | .recvMsg _ _ :: rest =>
    rest.any (fun e =>
      match e with
      | .launch _ => true
      | .recvMsg _ _ => false) || recvBeforeLaunch rest

/-- mkTest builds a security test differing from the zero value only in
its PstID; counterexample inputs below use it. -/
def mkTest (pid : Int) : KnowBe4SecurityTest :=
  { defaultSecurityTest with pstID := pid }

/-! ## Run orchestrator (archiver/main.go, handler) -/

/-- Stage names the six sequential steps of the handler. -/
inductive Stage where
  | initConfig
  | campaigns
  | groups
  | securityTests
  | saveTests
  | recipients
  deriving DecidableEq, Repr

/-- RunOutcome is the observable result of one handler run: a normal
return, an error return, or a runtime panic. -/
inductive RunOutcome where
  | ok
  | err (msg : String)
  | panicked
  deriving DecidableEq, Repr

/-- goSliceTake models the Go slice expression `s[:n]`: the prefix of
length n, and a panic (`none`) when n is negative or exceeds the slice
length.  The model takes the slice capacity to equal its length; Go may
over-allocate on append, a runtime memory detail outside this model. -/
def goSliceTake (l : List α) (n : Int) : Option (List α) :=
  if n < 0 ∨ (l.length : Int) < n then none else some (l.take n.toNat)

/-- selectTests embeds the count selection of the handler:

    count := config.MaxFileCount
    if count == 0 { count = len(stResults) }
    ... stResults[:count]
-/
def selectTests (stResults : List KnowBe4SecurityTest) (maxFileCount : Int) :
    Option (List KnowBe4SecurityTest) :=
  let count := if maxFileCount = 0 then (stResults.length : Int) else maxFileCount
  goSliceTake stResults count

/-- RunEnv carries the outcome of each externally-effectful stage as an
oracle: configuration loading, the three fetch-and-store stages, the
configured cap, and the per-task outcome of the recipient fan-out. -/
structure RunEnv where
  initRes : Except String Unit
  campaignsRes : Except String Unit
  groupsRes : Except String Unit
  testsRes : Except String (List KnowBe4SecurityTest)
  saveTestsRes : Except String Unit
  maxFileCount : Int
  taskFails : Int → Bool

/-- handler embeds the Go function of the same name: the six stages in
order, each fatal error aborting the rest with the wrapping the source
applies; the result lists the stages entered, the outcome, and the
recipient fan-out trace (empty unless the fan-out ran).  The inner `none`
branch of the fan-out is fuel exhaustion, which cannot occur (the fan-out
always receives sufficient fuel); it is mapped to a panic for
definiteness. -/
def handler (env : RunEnv) : List Stage × RunOutcome × List AsyncEvent :=
  match env.initRes with
  | .error e => ([.initConfig], .err e, [])
  | .ok _ =>
  match env.campaignsRes with
  | .error e =>
    ([.initConfig, .campaigns], .err ("error saving campaigns ... " ++ e), [])
  | .ok _ =>
  match env.groupsRes with
  | .error e =>
    ([.initConfig, .campaigns, .groups], .err ("error saving groups ... " ++ e), [])
  | .ok _ =>
  match env.testsRes with
  | .error e =>
    ([.initConfig, .campaigns, .groups, .securityTests],
      .err ("error getting security tests from api ..." ++ e), [])
  | .ok stResults =>
  match env.saveTestsRes with
  | .error e =>
    ([.initConfig, .campaigns, .groups, .securityTests, .saveTests],
      .err ("error saving security test results to S3 ..." ++ e), [])
  | .ok _ =>
  match selectTests stResults env.maxFileCount with
  | none =>
    ([.initConfig, .campaigns, .groups, .securityTests, .saveTests], .panicked, [])
  | some selected =>
    match saveRecipientsToS3Async env.taskFails selected with
    | none =>
      ([.initConfig, .campaigns, .groups, .securityTests, .saveTests, .recipients],
        .panicked, [])
    | some (trace, _, lastErr) =>
      ([.initConfig, .campaigns, .groups, .securityTests, .saveTests, .recipients],
        (match lastErr with
        | some msg => .err msg
        | none => .ok), trace)

/-! ## Theorems -/

/-! ## Theorems for claims C3 and C9 -/

/-- C3: the claim states that flattening joins the Name values of the
groups list and of the categories list with commas, so that groups named
"Corporate Employees" and "Volunteers" flatten to
"Corporate Employees,Volunteers".  The code appends the names with no
separator at all, producing "Corporate EmployeesVolunteers"; the claim (and
the repository's own fixture `exampleFlatSecurityTest`, which the test
`Test_getAllSecurityTests` compares against) is contradicted at exactly the
input the claim names. -/
theorem flattenGroups_drops_comma_on_fixture :
    flattenGroups [⟨16342, "Corporate Employees"⟩, ⟨16343, "Volunteers"⟩] =
      "Corporate EmployeesVolunteers" ∧
    flattenGroups [⟨16342, "Corporate Employees"⟩, ⟨16343, "Volunteers"⟩] ≠
      "Corporate Employees,Volunteers" ∧
    flattenCategories [⟨4237, "Current Events"⟩, ⟨4238, "Other"⟩] =
      "Current EventsOther" ∧
    flattenCategories [⟨4237, "Current Events"⟩, ⟨4238, "Other"⟩] ≠
      "Current Events,Other" := by
  refine ⟨rfl, ?_, rfl, ?_⟩ <;> decide

/-- C9: for every input record, flattening promotes each singular nested
sub-object to prefixed top-level scalar fields: a security test's Template
and LandingPage become template_id/template_name and
landing_page_id/landing_page_name, and a recipient's User becomes user_id,
user_active_directory_guid, user_first_name, user_last_name and user_email,
each equal to the corresponding nested value. -/
theorem flatten_promotes_nested_objects
    (test : KnowBe4SecurityTest) (recipient : KnowBe4Recipient) :
    (flattenTest test).templateID = test.template.id ∧
    (flattenTest test).templateName = test.template.name ∧
    (flattenTest test).landingPageID = test.landingPage.id ∧
    (flattenTest test).landingPageName = test.landingPage.name ∧
    (flattenRecipient recipient).userID = recipient.user.id ∧
    (flattenRecipient recipient).userActiveDirectoryGUID =
      recipient.user.activeDirectoryGUID ∧
    (flattenRecipient recipient).userFirstName = recipient.user.firstName ∧
    (flattenRecipient recipient).userLastName = recipient.user.lastName ∧
    (flattenRecipient recipient).userEmail = recipient.user.email := by
  refine ⟨rfl, rfl, rfl, rfl, rfl, rfl, rfl, rfl, rfl⟩

/-- C8: the claim states that the API client returns an error exactly when
the status is at least 300 (or the transport failed) and that the error
message includes the request URL, the status code, and the response body.
The error cases and the URL and status-code inclusions hold, but the
`Body: %s` segment formats `resp.Body` — the io.ReadCloser stream handle —
so the message carries the fmt rendering of the handle and never the
response payload: at a 404 response whose payload is "secret-payload", the
payload does not occur anywhere in the produced message. -/
theorem callAPI_error_message_lacks_body :
    (∃ msg,
      callAPI "https://kb4.example/v1/phishing/security_tests"
          (.ok ⟨404, "404 Not Found", "secret-payload",
            "&\x7b0xc000010060 \x7b\x7d false false\x7d"⟩) = .error msg ∧
      charsContain "https://kb4.example/v1/phishing/security_tests".data msg.data = true ∧
      charsContain (toString (404 : Nat)).data msg.data = true ∧
      charsContain "secret-payload".data msg.data = false) ∧
    (callAPI "https://kb4.example/v1/phishing/security_tests"
        (.ok ⟨200, "200 OK", "[]", "&\x7b\x7d"⟩)).isOk = true ∧
    (callAPI "https://kb4.example/v1/phishing/security_tests"
        (.failed "connection refused")).isOk = false := by
  refine ⟨⟨"API returned an error. URL: https://kb4.example/v1/phishing/security_tests, Code: 404, Status: 404 Not Found Body: &\x7b0xc000010060 \x7b\x7d false false\x7d",
      rfl, by decide, by decide, by decide⟩, by decide, by decide⟩

/-- collectAllPages_short_spec: when pages `i..k-1` are full (exactly 500
records) and page `k` is the first short page, the loop issues exactly the
requests `i..k` (each with per_page = 500), returns the in-order
concatenation of the decoded pages, and terminates within any fuel
exceeding `k - i`. -/
theorem collectAllPages_short_spec (wrapErr : Nat → String → String)
    (fetchReq : PageRequest → Except String (List α)) (pages : Nat → List α)
    (k : Nat) :
    ∀ fuel i, i ≤ k → k < fuel + i →
    (∀ j, i ≤ j → j ≤ k → fetchReq ⟨j, countPerPage⟩ = .ok (pages j)) →
    (∀ j, i ≤ j → j < k → (pages j).length = countPerPage) →
    (pages k).length < countPerPage →
    collectAllPages wrapErr fetchReq fuel i =
      ((List.range' i (k + 1 - i)).map (fun j => ⟨j, countPerPage⟩),
        some (.ok ((List.range' i (k + 1 - i)).map pages).flatten)) := by
  intro fuel
  induction fuel with
  | zero => intro i hik hfuel _ _ _; omega
  | succ fuel ih =>
    intro i hik hfuel hok hfull hshort
    rcases Nat.eq_or_lt_of_le hik with heq | hlt
    · have h1 : k + 1 - i = 1 := by omega
      have hfetch := hok i le_rfl (by omega)
      have hs : (pages i).length < countPerPage := by rw [heq]; exact hshort
      simp only [collectAllPages, hfetch, if_pos hs, h1]
      simp [List.range']
    · have hfetch := hok i le_rfl (le_of_lt hlt)
      have hlen : (pages i).length = countPerPage := hfull i le_rfl hlt
      have hrec := ih (i + 1) hlt (by omega)
        (fun j hj hjk => hok j (by omega) hjk)
        (fun j hj hjk => hfull j (by omega) hjk) hshort
      have hnotshort : ¬ (pages i).length < countPerPage := by omega
      simp only [collectAllPages, hfetch, if_neg hnotshort, hrec]
      have hsplit : k + 1 - i = (k - i) + 1 := by omega
      have hsplit2 : k + 1 - (i + 1) = k - i := by omega
      rw [hsplit, hsplit2, List.range'_succ]
      simp

/-- collectAllPages_full_forever: when every page from `i` on is full
(exactly 500 records), the loop never finishes: for every fuel the result
component is `none`.  This is the non-termination half of C5. -/
theorem collectAllPages_full_forever (wrapErr : Nat → String → String)
    (fetchReq : PageRequest → Except String (List α)) (pages : Nat → List α)
    (hok : ∀ j, fetchReq ⟨j, countPerPage⟩ = .ok (pages j))
    (hfull : ∀ j, (pages j).length = countPerPage) :
    ∀ fuel i, (collectAllPages wrapErr fetchReq fuel i).2 = none := by
  intro fuel
  induction fuel with
  | zero => intro i; rfl
  | succ fuel ih =>
    intro i
    have hnotshort : ¬ (pages i).length < countPerPage := by
      have := hfull i; omega
    simp only [collectAllPages, hok i, if_neg hnotshort]
    have := ih (i + 1)
    split <;> simp_all

/-- collectAllPages_error_spec: when pages `i..m-1` are full and the fetch
of page `m` fails, the loop issues requests `i..m`, returns the wrapped
error of page `m`, and returns no records at all (the error replaces the
accumulator, exactly as the Go function returns `nil, nil, err`). -/
theorem collectAllPages_error_spec (wrapErr : Nat → String → String)
    (fetchReq : PageRequest → Except String (List α)) (pages : Nat → List α)
    (m : Nat) (e : String) :
    ∀ fuel i, i ≤ m → m < fuel + i →
    (∀ j, i ≤ j → j < m → fetchReq ⟨j, countPerPage⟩ = .ok (pages j)) →
    (∀ j, i ≤ j → j < m → (pages j).length = countPerPage) →
    fetchReq ⟨m, countPerPage⟩ = .error e →
    collectAllPages wrapErr fetchReq fuel i =
      ((List.range' i (m + 1 - i)).map (fun j => ⟨j, countPerPage⟩),
        some (.error (wrapErr m e))) := by
  intro fuel
  induction fuel with
  | zero => intro i him hfuel _ _ _; omega
  | succ fuel ih =>
    intro i him hfuel hok hfull herr
    rcases Nat.eq_or_lt_of_le him with heq | hlt
    · have h1 : m + 1 - i = 1 := by omega
      have herr' : fetchReq ⟨i, countPerPage⟩ = .error e := by rw [heq]; exact herr
      have hwrap : wrapErr i e = wrapErr m e := by rw [heq]
      simp only [collectAllPages, herr', h1, hwrap]
      simp [List.range']
    · have hfetch := hok i le_rfl hlt
      have hlen : (pages i).length = countPerPage := hfull i le_rfl hlt
      have hnotshort : ¬ (pages i).length < countPerPage := by omega
      have hrec := ih (i + 1) hlt (by omega)
        (fun j hj hjm => hok j (by omega) hjm)
        (fun j hj hjm => hfull j (by omega) hjm)
      simp only [collectAllPages, hfetch, if_neg hnotshort, hrec herr]
      have hsplit : m + 1 - i = (m - i) + 1 := by omega
      have hsplit2 : m + 1 - (i + 1) = m - i := by omega
      rw [hsplit, hsplit2, List.range'_succ]
      simp

/-- C4: for every resource, the paginated collector requests pages strictly
ascending from 1 with per_page = 500, returns exactly the in-order
concatenation of the decoded records of all pages, stops at the first page
holding fewer than 500 records and issues no request beyond it (the
request list is exactly pages 1..k for first short page k). -/
theorem getAllSecurityTests_pagination
    (fetchReq : PageRequest → Except String (List KnowBe4SecurityTest))
    (pages : Nat → List KnowBe4SecurityTest) (k : Nat) (hk : 1 ≤ k)
    (hok : ∀ j, 1 ≤ j → j ≤ k → fetchReq ⟨j, countPerPage⟩ = .ok (pages j))
    (hfull : ∀ j, 1 ≤ j → j < k → (pages j).length = countPerPage)
    (hshort : (pages k).length < countPerPage)
    (fuel : Nat) (hfuel : k ≤ fuel) :
    getAllSecurityTests fetchReq fuel =
      ((List.range' 1 k).map (fun j => ⟨j, countPerPage⟩),
        some (.ok ((List.range' 1 k).map pages).flatten)) := by
  have h := collectAllPages_short_spec wrapTestsPageErr fetchReq pages k fuel 1
    hk (by omega) hok hfull hshort
  simpa [getAllSecurityTests] using h

/-- C4 witness: a first page of zero records yields an empty result after
exactly one request, by the theorem applied at k = 1 with an oracle whose
first page is empty. -/
theorem getAllSecurityTests_pagination_witness :
    (1 : Nat) ≤ 1 ∧
    ([] : List KnowBe4SecurityTest).length < countPerPage ∧
    getAllSecurityTests (fun _ => .ok []) 1 =
      ([⟨1, countPerPage⟩], some (.ok [])) := by
  refine ⟨le_rfl, by decide, ?_⟩
  have h := getAllSecurityTests_pagination (fun _ => .ok []) (fun _ => []) 1
    le_rfl (fun _ _ _ => rfl) (fun j h1 h2 => by omega) (by decide) 1 le_rfl
  simpa [List.range'] using h

/-- C5: for every sequence of page responses in which some page returns
fewer than 500 records, the paginated collector terminates at the first
such page (first conjunct); the short-page rule is the sole termination
condition: when every page returns exactly 500 records the loop never
finishes, whatever the fuel (second conjunct). -/
theorem getAllRecipients_short_page_sole_termination (secTestID : Int) :
    (∀ (fetchReq : PageRequest → Except String (List KnowBe4Recipient))
        (pages : Nat → List KnowBe4Recipient) (k : Nat), 1 ≤ k →
      (∀ j, 1 ≤ j → j ≤ k → fetchReq ⟨j, countPerPage⟩ = .ok (pages j)) →
      (∀ j, 1 ≤ j → j < k → (pages j).length = countPerPage) →
      (pages k).length < countPerPage →
      ∀ fuel, k ≤ fuel →
        getAllRecipientsForSecurityTest secTestID fetchReq fuel =
          ((List.range' 1 k).map (fun j => ⟨j, countPerPage⟩),
            some (.ok ((List.range' 1 k).map pages).flatten))) ∧
    (∀ (fetchReq : PageRequest → Except String (List KnowBe4Recipient))
        (pages : Nat → List KnowBe4Recipient),
      (∀ j, fetchReq ⟨j, countPerPage⟩ = .ok (pages j)) →
      (∀ j, (pages j).length = countPerPage) →
      ∀ fuel, (getAllRecipientsForSecurityTest secTestID fetchReq fuel).2 = none) := by
  constructor
  · intro fetchReq pages k hk hok hfull hshort fuel hfuel
    have h := collectAllPages_short_spec (wrapRecipientsPageErr secTestID)
      fetchReq pages k fuel 1 hk (by omega) hok hfull hshort
    simpa [getAllRecipientsForSecurityTest] using h
  · intro fetchReq pages hok hfull fuel
    exact collectAllPages_full_forever (wrapRecipientsPageErr secTestID)
      fetchReq pages hok hfull fuel 1

/-- C5 witness: the theorem applied at security test 14240, first to an
oracle whose first page is empty (the collector finishes after one
request), then to an oracle whose every page is exactly full (no fuel
suffices). -/
theorem getAllRecipients_short_page_sole_termination_witness :
    getAllRecipientsForSecurityTest 14240 (fun _ => .ok []) 1 =
      ([⟨1, countPerPage⟩], some (.ok [])) ∧
    (getAllRecipientsForSecurityTest 14240
      (fun _ => .ok (List.replicate countPerPage sampleRecipient)) 3).2 = none := by
  constructor
  · have h := (getAllRecipients_short_page_sole_termination 14240).1
      (fun _ => .ok []) (fun _ => []) 1 le_rfl (fun _ _ _ => rfl)
      (fun j h1 h2 => by omega) (by decide) 1 le_rfl
    simpa [List.range'] using h
  · exact (getAllRecipients_short_page_sole_termination 14240).2
      (fun _ => .ok (List.replicate countPerPage sampleRecipient))
      (fun _ => List.replicate countPerPage sampleRecipient)
      (fun _ => rfl) (fun _ => by simp) 3

/-- join_cons: String.join splits off its head. -/
theorem join_cons (a : String) (l : List String) :
    String.join (a :: l) = a ++ String.join l := by
  rw [String.join_eq, String.join_eq]
  apply String.ext
  simp

/-- no_newline_append: a newline-free invariant is preserved by string
concatenation. -/
theorem no_newline_append {a b : String} (ha : '\n' ∉ a.data)
    (hb : '\n' ∉ b.data) : '\n' ∉ (a ++ b).data := by
  rw [String.data_append]
  intro h
  rcases List.mem_append.mp h with h1 | h2
  exacts [ha h1, hb h2]

/-- digitChar_ne_newline: the numeral printer only emits digit characters,
never a newline. -/
theorem digitChar_ne_newline (n : Nat) : Nat.digitChar n ≠ '\n' := by
  intro h
  by_cases hn : n < 16
  · interval_cases n <;> exact absurd h (by decide)
  · have hstar : Nat.digitChar n = '*' := by
      unfold Nat.digitChar
      repeat rw [if_neg (by omega)]
    rw [hstar] at h
    exact absurd h (by decide)

/-- toDigitsCore_newline: a newline in the output of the core numeral loop
must already be in the accumulator. -/
theorem toDigitsCore_newline (b : Nat) :
    ∀ f n l, '\n' ∈ Nat.toDigitsCore b f n l → '\n' ∈ l := by
  intro f
  induction f with
  | zero => intro n l h; exact h
  | succ f ih =>
    intro n l h
    simp only [Nat.toDigitsCore] at h
    split at h
    · rcases List.mem_cons.mp h with heq | hl
      · exact absurd heq.symm (digitChar_ne_newline _)
      · exact hl
    · rcases List.mem_cons.mp (ih _ _ h) with heq | hl
      · exact absurd heq.symm (digitChar_ne_newline _)
      · exact hl

/-- natRepr_no_newline: the decimal representation of a natural number
contains no newline. -/
theorem natRepr_no_newline (n : Nat) : '\n' ∉ (Nat.repr n).data := by
  intro h
  simp only [Nat.repr, Nat.toDigits, List.asString] at h
  exact absurd (toDigitsCore_newline 10 _ _ _ h) (by simp)

/-- intRepr_no_newline: the decimal representation of an integer contains
no newline. -/
theorem intRepr_no_newline (n : Int) : '\n' ∉ (toString n).data := by
  cases n with
  | ofNat m =>
    intro h
    exact natRepr_no_newline m h
  | negSucc m =>
    intro h
    have hdata : (toString (Int.negSucc m)).data = '-' :: (Nat.repr (m + 1)).data := rfl
    rw [hdata] at h
    rcases List.mem_cons.mp h with heq | hl
    · exact absurd heq (by decide)
    · exact natRepr_no_newline (m + 1) hl

/-- escapeChar_no_newline: escaping never produces a raw newline. -/
theorem escapeChar_no_newline (c : Char) : '\n' ∉ escapeChar c := by
  unfold escapeChar
  split_ifs with h1 h2 h3 h4 h5 <;> intro h
  · exact absurd h (by decide)
  · exact absurd h (by decide)
  · exact absurd h (by decide)
  · exact absurd h (by decide)
  · exact absurd h (by decide)
  · exact h3 (List.mem_singleton.mp h).symm

/-- escapeString_no_newline: an escaped string literal contains no raw
newline. -/
theorem escapeString_no_newline (s : String) : '\n' ∉ (escapeString s).data := by
  intro h
  rcases List.mem_flatMap.mp h with ⟨c, _, hc⟩
  exact escapeChar_no_newline c hc

mutual
/-- Json.encode_no_newline: every encoded JSON value is a single line. -/
theorem Json.encode_no_newline : ∀ j : Json, '\n' ∉ (Json.encode j).data
  | .null => by decide
  | .bool b => by cases b <;> decide
  | .num n => intRepr_no_newline n
  | .str s =>
    no_newline_append (no_newline_append (by decide) (escapeString_no_newline s))
      (by decide)
  | .arr elems =>
    no_newline_append
      (no_newline_append (by decide) (jsonListEncodeSep_no_newline elems))
      (by decide)
  | .obj fields =>
    no_newline_append
      (no_newline_append (by decide) (jsonFieldsEncodeSep_no_newline fields))
      (by decide)

/-- jsonListEncodeSep_no_newline: encoded array elements stay on one
line. -/
theorem jsonListEncodeSep_no_newline :
    ∀ l : JsonList, '\n' ∉ (JsonList.encodeSep l).data
  | .nil => by decide
  | .cons hd .nil => Json.encode_no_newline hd
  | .cons hd (.cons hd2 tl) =>
    no_newline_append (no_newline_append (Json.encode_no_newline hd) (by decide))
      (jsonListEncodeSep_no_newline (.cons hd2 tl))

/-- jsonFieldsEncodeSep_no_newline: encoded object fields stay on one
line. -/
theorem jsonFieldsEncodeSep_no_newline :
    ∀ fs : JsonFields, '\n' ∉ (JsonFields.encodeSep fs).data
  | .nil => by decide
  | .cons key val .nil =>
    no_newline_append
      (no_newline_append
        (no_newline_append (by decide) (escapeString_no_newline key)) (by decide))
      (Json.encode_no_newline val)
  | .cons key val (.cons k2 v2 tl) =>
    no_newline_append
      (no_newline_append
        (no_newline_append
          (no_newline_append
            (no_newline_append (by decide) (escapeString_no_newline key))
            (by decide))
          (Json.encode_no_newline val))
        (by decide))
      (jsonFieldsEncodeSep_no_newline (.cons k2 v2 tl))
end

/-- writeRows_spec: the buffer loop produces the concatenation, in input
order, of each encoded row followed by one newline. -/
theorem writeRows_spec :
    ∀ (l : JsonList) (buf : String),
      writeRows l buf =
        buf ++ String.join ((JsonList.toList l).map (fun j => Json.encode j ++ "\n"))
  | .nil, buf => by
    simp [writeRows, JsonList.toList, String.join]
  | .cons hd tl, buf => by
    simp only [writeRows, JsonList.toList, List.map]
    rw [writeRows_spec tl, join_cons]
    simp [String.append_assoc]

/-- count_newline_join: the encoded output holds exactly one newline per
record (each encoded record is newline-free and is followed by exactly one
newline). -/
theorem count_newline_join :
    ∀ l : JsonList,
      (String.join ((JsonList.toList l).map (fun j => Json.encode j ++ "\n"))).data.count '\n' =
        (JsonList.toList l).length
  | .nil => by simp [JsonList.toList, String.join]
  | .cons hd tl => by
    simp only [JsonList.toList, List.map]
    rw [join_cons, String.data_append, List.count_append]
    have h1 : (Json.encode hd ++ "\n").data.count '\n' = 1 := by
      rw [String.data_append, List.count_append]
      rw [List.count_eq_zero.mpr (Json.encode_no_newline hd)]
      decide
    rw [h1, count_newline_join tl]
    simp only [List.length_cons]
    omega

/-- C6: the line-delimited encoder maps an empty sequence to empty output
with no error; a nil or non-sequence input to a usage error; and a
sequence of n records to exactly n lines in input order, each line the
JSON encoding of one record followed by a single newline (the output is
the in-order concatenation of the encoded records each followed by "\n",
and it holds exactly n newline characters); a scalar serializes as a bare
JSON value, not wrapped in an array, on its own line. -/
theorem marshalJsonLines_contract :
    marshalJsonLines GoValue.goNil = .error "marshalJsonLines nil input" ∧
    (∀ v : Json, marshalJsonLines (GoValue.goOther v) =
      .error "marshalJsonLines input is not []interface\x7b\x7d") ∧
    marshalJsonLines (GoValue.goList .nil) = .ok "" ∧
    (∀ l : JsonList,
      marshalJsonLines (.goList l) =
        .ok (String.join ((JsonList.toList l).map (fun j => Json.encode j ++ "\n")))) ∧
    (∀ l : JsonList,
      (String.join ((JsonList.toList l).map (fun j => Json.encode j ++ "\n"))).data.count '\n' =
        (JsonList.toList l).length) ∧
    (∀ n : Int, marshalJsonLines (.goList (.cons (.num n) .nil)) =
      .ok (toString n ++ "\n")) := by
  refine ⟨rfl, fun v => rfl, rfl, ?_, count_newline_join, ?_⟩
  · intro l
    simp only [marshalJsonLines]
    rw [writeRows_spec]
    simp
  · intro n
    rfl

/-- taskEvents_succ: the events of `count + 1` tasks start with the launch
and receive of the first task. -/
theorem taskEvents_succ (taskFails : Int → Bool) (secTests : List KnowBe4SecurityTest)
    (next count : Nat) :
    taskEvents taskFails secTests next (count + 1) =
      .launch (secTests.getD next defaultSecurityTest).pstID ::
      .recvMsg (secTests.getD next defaultSecurityTest).pstID
        (taskFails (secTests.getD next defaultSecurityTest).pstID) ::
      taskEvents taskFails secTests (next + 1) count := by
  simp [taskEvents, List.range'_succ]

/-- failCount_succ: the failures among `count + 1` tasks split off the
first task. -/
theorem failCount_succ (taskFails : Int → Bool) (secTests : List KnowBe4SecurityTest)
    (next count : Nat) :
    failCount taskFails secTests next (count + 1) =
      (if taskFails (secTests.getD next defaultSecurityTest).pstID then 1 else 0) +
        failCount taskFails secTests (next + 1) count := by
  simp only [failCount, List.range'_succ, List.map_cons, List.countP_cons]
  split <;> omega

/-- taskEvents_append: events of consecutive task ranges concatenate. -/
theorem taskEvents_append (taskFails : Int → Bool) (secTests : List KnowBe4SecurityTest)
    (next c1 c2 : Nat) :
    taskEvents taskFails secTests next (c1 + c2) =
      taskEvents taskFails secTests next c1 ++
        taskEvents taskFails secTests (next + c1) c2 := by
  simp only [taskEvents]
  rw [Nat.add_comm c1 c2, ← List.range'_append_1, List.flatMap_append]

/-- failCount_append: failures over consecutive task ranges add. -/
theorem failCount_append (taskFails : Int → Bool) (secTests : List KnowBe4SecurityTest)
    (next c1 c2 : Nat) :
    failCount taskFails secTests next (c1 + c2) =
      failCount taskFails secTests next c1 +
        failCount taskFails secTests (next + c1) c2 := by
  simp only [failCount]
  rw [Nat.add_comm c1 c2, ← List.range'_append_1, List.map_append, List.countP_append]

/-- innerBatch_eq: one batch launches `min i (remaining)` tasks, pairing
each launch immediately with the receipt of that task's completion,
accumulates their failures into the error counter, and reports `allDone`
exactly when it ran out of tests before its `i` iterations. -/
theorem innerBatch_eq (taskFails : Int → Bool) (secTests : List KnowBe4SecurityTest) :
    ∀ i next e,
      innerBatch taskFails secTests i next e =
        (next + min i (secTests.length - next),
          e + failCount taskFails secTests next (min i (secTests.length - next)),
          taskEvents taskFails secTests next (min i (secTests.length - next)),
          decide (secTests.length - next < i)) := by
  intro i
  induction i with
  | zero =>
    intro next e
    simp [innerBatch, taskEvents, failCount]
  | succ i ih =>
    intro next e
    by_cases hle : secTests.length ≤ next
    · have h0 : secTests.length - next = 0 := by omega
      simp [innerBatch, hle, h0, taskEvents, failCount]
    · have hlt : next < secTests.length := by omega
      have hmin : min (i + 1) (secTests.length - next) =
          (min i (secTests.length - (next + 1))) + 1 := by omega
      have hdone : (decide (secTests.length - (next + 1) < i)) =
          (decide (secTests.length - next < i + 1)) := by
        simp only [decide_eq_decide]
        omega
      simp only [innerBatch, if_neg hle, ih (next + 1)]
      rw [hmin, taskEvents_succ, failCount_succ]
      refine Prod.ext (by omega) (Prod.ext ?_ (Prod.ext rfl hdone))
      simp only
      split <;> omega

/-- outerLoop_eq: with enough fuel, the outer loop processes every
remaining test — it keeps launching batches whether or not the error
budget has been reached — accumulating every failure into the error
counter; `lastErr` ends set (to the "too many errors" message carrying the
final counter) exactly when the final counter has reached the budget, and
otherwise keeps its incoming value. -/
theorem outerLoop_eq (taskFails : Int → Bool) (secTests : List KnowBe4SecurityTest) :
    ∀ fuel next e lastErr,
      secTests.length - next < workingGroupCount * fuel →
      outerLoop taskFails secTests fuel next e lastErr =
        some (taskEvents taskFails secTests next (secTests.length - next),
          e + failCount taskFails secTests next (secTests.length - next),
          if maxErrorsAllowed ≤
              e + failCount taskFails secTests next (secTests.length - next) then
            some (tooManyErrorsMsg
              (e + failCount taskFails secTests next (secTests.length - next)))
          else lastErr) := by
  intro fuel
  induction fuel with
  | zero => intro next e lastErr h; simp [workingGroupCount] at h
  | succ fuel ih =>
    intro next e lastErr h
    by_cases hdone : secTests.length - next < workingGroupCount
    · have hmin : min workingGroupCount (secTests.length - next) =
          secTests.length - next := by omega
      simp only [outerLoop, innerBatch_eq, hmin]
      rw [if_pos (show (decide (secTests.length - next < workingGroupCount)) = true by
        simp [hdone])]
    · have hmin : min workingGroupCount (secTests.length - next) =
          workingGroupCount := by omega
      have hfuel2 : secTests.length - (next + workingGroupCount) <
          workingGroupCount * fuel := by
        simp only [workingGroupCount] at *
        omega
      have hsplit : secTests.length - next =
          workingGroupCount + (secTests.length - (next + workingGroupCount)) := by
        simp only [workingGroupCount] at *
        omega
      simp only [outerLoop, innerBatch_eq, hmin]
      rw [if_neg (by simp [hdone]), ih _ _ _ hfuel2]
      have hev := taskEvents_append taskFails secTests next workingGroupCount
        (secTests.length - (next + workingGroupCount))
      have hfc := failCount_append taskFails secTests next workingGroupCount
        (secTests.length - (next + workingGroupCount))
      rw [hsplit, hev, hfc]
      set f1 := failCount taskFails secTests next workingGroupCount with hf1
      set f2 := failCount taskFails secTests (next + workingGroupCount)
        (secTests.length - (next + workingGroupCount)) with hf2
      by_cases h5 : maxErrorsAllowed ≤ e + f1
      · have h5' : maxErrorsAllowed ≤ e + f1 + f2 := by omega
        rw [if_pos h5]
        simp only [← Nat.add_assoc]
        simp [h5']
      · rw [if_neg h5]
        simp only [← Nat.add_assoc]

/-- launchedIds_taskEvents: the launches recorded for a task range are the
PstIDs of those tasks, in order. -/
theorem launchedIds_taskEvents (taskFails : Int → Bool)
    (secTests : List KnowBe4SecurityTest) :
    ∀ count next,
      launchedIds (taskEvents taskFails secTests next count) =
        (List.range' next count).map
          (fun idx => (secTests.getD idx defaultSecurityTest).pstID) := by
  intro count
  induction count with
  | zero => intro next; simp [taskEvents, launchedIds]
  | succ count ih =>
    intro next
    rw [taskEvents_succ]
    simp only [launchedIds, List.filterMap_cons] at *
    rw [ih (next + 1), List.range'_succ]
    simp

/-- getD_range'_shift: indexing a cons cell at positions shifted by one is
indexing the tail. -/
theorem getD_range'_shift (l : List α) (a d : α) (f : α → β) :
    ∀ n s, (List.range' (s + 1) n).map (fun i => f ((a :: l).getD i d)) =
      (List.range' s n).map (fun i => f (l.getD i d)) := by
  intro n
  induction n with
  | zero => intro s; rfl
  | succ n ih =>
    intro s
    rw [List.range'_succ, List.range'_succ]
    simp only [List.map_cons, List.getD_cons_succ]
    rw [ih (s + 1)]

/-- map_getD_range_length: mapping an indexed read over all positions of a
list is mapping over the list itself. -/
theorem map_getD_range_length (l : List α) (d : α) (f : α → β) :
    (List.range' 0 l.length).map (fun i => f (l.getD i d)) = l.map f := by
  induction l with
  | nil => rfl
  | cons a l ih =>
    simp only [List.length_cons, List.range'_succ, List.map_cons,
      List.getD_cons_zero]
    rw [show (0 : Nat) + 1 = 0 + 1 from rfl, getD_range'_shift l a d f l.length 0, ih]

/-- C1 (amended): a single running error counter accumulates every
reported per-task failure across the whole run, and the run ends with the
fatal "too many errors" error exactly when the counter reaches 5; however
the archiver does not stop launching batches once the counter reaches the
budget — it launches a task for every security test in the list before the
run ends, so when every pipeline fails the number of tasks launched equals
the number of tests, however far beyond the budget that is. -/
theorem saveRecipientsToS3Async_budget_not_enforced (taskFails : Int → Bool)
    (secTests : List KnowBe4SecurityTest) :
    ∃ trace errCount lastErr,
      saveRecipientsToS3Async taskFails secTests = some (trace, errCount, lastErr) ∧
      launchedIds trace = secTests.map (fun t => t.pstID) ∧
      errCount = (secTests.map (fun t => t.pstID)).countP taskFails ∧
      lastErr = (if maxErrorsAllowed ≤ errCount then
        some (tooManyErrorsMsg errCount) else none) := by
  have h := outerLoop_eq taskFails secTests (secTests.length + 1) 0 0 none
    (by simp only [workingGroupCount]; omega)
  refine ⟨_, _, _, h, ?_, ?_, rfl⟩
  · rw [launchedIds_taskEvents]
    simpa using map_getD_range_length secTests defaultSecurityTest (fun t => t.pstID)
  · simp only [failCount, Nat.zero_add, Nat.sub_zero]
    rw [show ((List.range' 0 secTests.length).map
        (fun idx => (secTests.getD idx defaultSecurityTest).pstID)) =
      secTests.map (fun t => t.pstID) from
        map_getD_range_length secTests defaultSecurityTest (fun t => t.pstID)]

/-- C1 counterexample: with 20 tests whose pipelines all fail, the error
counter reaches the budget of 5 during the first batch, yet the archiver
goes on to launch all 20 tasks — the claim that no batch is launched after
the one in progress, so that the launch count overshoots the budget by at
most one batch width (5 + 5 = 10), is false. -/
theorem saveRecipientsToS3Async_overshoot_counterexample :
    ((saveRecipientsToS3Async (fun _ => true)
        ((List.range 20).map (fun i => mkTest i))).map
      (fun r => ((launchedIds r.1).length, r.2.1, r.2.2.isSome)) =
      some (20, 20, true)) ∧
    maxErrorsAllowed ≤ 20 ∧
    ¬ (20 ≤ maxErrorsAllowed + workingGroupCount) := by
  refine ⟨by decide, by decide, by decide⟩

/-- C2: the claim states that all 5 tasks of a batch are launched before
any of their completion messages is consumed.  The code instead performs
the blocking receive `<-c` immediately after each `go` statement, inside
the launching loop: with two tests (both in the first batch) the observed
event order consumes the completion of task 101 before task 102 is
launched. -/
theorem saveRecipientsToS3Async_interleaves_launch_receive :
    ((saveRecipientsToS3Async (fun _ => false) [mkTest 101, mkTest 102]).map
      (fun r => r.1) =
      some [.launch 101, .recvMsg 101 false, .launch 102, .recvMsg 102 false]) ∧
    recvBeforeLaunch
      [.launch 101, .recvMsg 101 false, .launch 102, .recvMsg 102 false] = true := by
  refine ⟨by decide, by decide⟩

/-- C7: if any page request of a resource collection fails — a transport
error from client.Do, a non-2xx status, or a JSON decode error on the page
body — the collector returns an error and no records (no partial results
for that resource), and the run orchestrator, on a failing security-tests
stage, aborts all later stages (neither the store stage nor the recipient
fan-out is entered) and surfaces the error to the caller. -/
theorem page_failure_aborts_resource_and_run :
    (∀ (url : String) (transport : PageRequest → TransportResult)
        (decodeBody : String → Except String (List KnowBe4SecurityTest))
        (wrapDec : String → String) (pages : Nat → List KnowBe4SecurityTest)
        (m : Nat), 1 ≤ m →
      (∀ j, 1 ≤ j → j < m →
        fetchPageViaAPI url transport decodeBody wrapDec ⟨j, countPerPage⟩ =
          .ok (pages j)) →
      (∀ j, 1 ≤ j → j < m → (pages j).length = countPerPage) →
      ((∃ msg, transport ⟨m, countPerPage⟩ = .failed msg) ∨
       (∃ resp, transport ⟨m, countPerPage⟩ = .ok resp ∧
          300 ≤ resp.statusCode) ∨
       (∃ resp de, transport ⟨m, countPerPage⟩ = .ok resp ∧
          resp.statusCode < 300 ∧ decodeBody resp.body = .error de)) →
      ∀ fuel, m ≤ fuel →
        ∃ e, getAllSecurityTests
            (fetchPageViaAPI url transport decodeBody wrapDec) fuel =
          ((List.range' 1 m).map (fun j => ⟨j, countPerPage⟩),
            some (.error e))) ∧
    (∀ (env : RunEnv) (e : String), env.initRes = .ok () →
      env.campaignsRes = .ok () → env.groupsRes = .ok () →
      env.testsRes = .error e →
      handler env =
        ([.initConfig, .campaigns, .groups, .securityTests],
          .err ("error getting security tests from api ..." ++ e), [])) := by
  constructor
  · intro url transport decodeBody wrapDec pages m hm hok hfull hcase fuel hfuel
    have hfetch : ∃ e0, fetchPageViaAPI url transport decodeBody wrapDec
        ⟨m, countPerPage⟩ = .error e0 := by
      rcases hcase with ⟨msg, ht⟩ | ⟨resp, ht, hst⟩ | ⟨resp, de, ht, hst, hdec⟩
      · exact ⟨"error making http request: " ++ msg,
          by simp [fetchPageViaAPI, ht, callAPI]⟩
      · exact ⟨"API returned an error. URL: " ++ url ++ ", Code: " ++
            toString resp.statusCode ++ ", Status: " ++ resp.status ++
            " Body: " ++ resp.bodyStreamRepr,
          by simp [fetchPageViaAPI, ht, callAPI, if_pos hst]⟩
      · refine ⟨wrapDec de, ?_⟩
        have hn : ¬ 300 ≤ resp.statusCode := by omega
        simp [fetchPageViaAPI, ht, callAPI, if_neg hn, hdec]
    obtain ⟨e0, hfetch⟩ := hfetch
    have h := collectAllPages_error_spec wrapTestsPageErr
      (fetchPageViaAPI url transport decodeBody wrapDec) pages m e0 fuel 1 hm
      (by omega) hok hfull hfetch
    refine ⟨wrapTestsPageErr m e0, ?_⟩
    rw [getAllSecurityTests, h]
    simp
  · intro env e h1 h2 h3 h4
    rcases env with ⟨initRes, campaignsRes, groupsRes, testsRes, saveTestsRes, mfc, tf⟩
    simp only at h1 h2 h3 h4
    rw [h1] at *
    simp [handler, h1, h2, h3, h4]

/-- C7 witness: the theorem applied three times, with a first page whose
transport fails outright, answers 500 Internal Server Error, and answers
200 with an undecodable body, and to an environment whose security-tests
stage fails with "boom". -/
theorem page_failure_aborts_resource_and_run_witness :
    (1 : Nat) ≤ 1 ∧
    (∃ e, getAllSecurityTests
        (fetchPageViaAPI "https://kb4.example"
          (fun _ => .failed "connection refused")
          (fun _ => .ok []) id) 1 =
      ([⟨1, countPerPage⟩], some (.error e))) ∧
    (∃ e, getAllSecurityTests
        (fetchPageViaAPI "https://kb4.example"
          (fun _ => .ok ⟨500, "500 Internal Server Error", "oops", "&\x7b\x7d"⟩)
          (fun _ => .ok []) id) 1 =
      ([⟨1, countPerPage⟩], some (.error e))) ∧
    (∃ e, getAllSecurityTests
        (fetchPageViaAPI "https://kb4.example"
          (fun _ => .ok ⟨200, "200 OK", "not json", "&\x7b\x7d"⟩)
          (fun _ => .error "invalid character") id) 1 =
      ([⟨1, countPerPage⟩], some (.error e))) ∧
    handler ⟨.ok (), .ok (), .ok (), .error "boom", .ok (), 0, fun _ => false⟩ =
      ([.initConfig, .campaigns, .groups, .securityTests],
        .err ("error getting security tests from api ..." ++ "boom"), []) := by
  refine ⟨le_rfl, ?_, ?_, ?_, ?_⟩
  · have h := page_failure_aborts_resource_and_run.1 "https://kb4.example"
      (fun _ => .failed "connection refused") (fun _ => .ok []) id (fun _ => []) 1
      le_rfl (fun j hj hj2 => by omega) (fun j hj hj2 => by omega)
      (Or.inl ⟨"connection refused", rfl⟩) 1 le_rfl
    simpa [List.range'] using h
  · have h := page_failure_aborts_resource_and_run.1 "https://kb4.example"
      (fun _ => .ok ⟨500, "500 Internal Server Error", "oops", "&\x7b\x7d"⟩)
      (fun _ => .ok []) id (fun _ => []) 1
      le_rfl (fun j hj hj2 => by omega) (fun j hj hj2 => by omega)
      (Or.inr (Or.inl ⟨⟨500, "500 Internal Server Error", "oops", "&\x7b\x7d"⟩,
        rfl, by decide⟩)) 1 le_rfl
    simpa [List.range'] using h
  · have h := page_failure_aborts_resource_and_run.1 "https://kb4.example"
      (fun _ => .ok ⟨200, "200 OK", "not json", "&\x7b\x7d"⟩)
      (fun _ => .error "invalid character") id (fun _ => []) 1
      le_rfl (fun j hj hj2 => by omega) (fun j hj hj2 => by omega)
      (Or.inr (Or.inr ⟨⟨200, "200 OK", "not json", "&\x7b\x7d"⟩,
        "invalid character", rfl, by decide, rfl⟩)) 1 le_rfl
    simpa [List.range'] using h
  · exact page_failure_aborts_resource_and_run.2
      ⟨.ok (), .ok (), .ok (), .error "boom", .ok (), 0, fun _ => false⟩
      "boom" rfl rfl rfl rfl

/-- C10: with every earlier stage succeeding, a MaxFileCount greater than
the number of security tests fetched (or negative) makes the handler panic
at the slice expression `stResults[:count]` — the run ends in a panic, not
an error return, with the recipient stage never entered; MaxFileCount of 0
selects every test, and a value between 1 and the number of tests selects
exactly that prefix. -/
theorem handler_max_file_count_slice (tests : List KnowBe4SecurityTest)
    (taskFails : Int → Bool) (m : Int) :
    ((tests.length : Int) < m ∨ m < 0 →
      handler ⟨.ok (), .ok (), .ok (), .ok tests, .ok (), m, taskFails⟩ =
        ([.initConfig, .campaigns, .groups, .securityTests, .saveTests],
          .panicked, [])) ∧
    (m = 0 → selectTests tests m = some tests) ∧
    (1 ≤ m → m ≤ (tests.length : Int) →
      selectTests tests m = some (tests.take m.toNat)) := by
  refine ⟨?_, ?_, ?_⟩
  · intro hrange
    have hm0 : ¬ m = 0 := by omega
    have hsel : selectTests tests m = none := by
      simp only [selectTests, goSliceTake, if_neg hm0]
      rw [if_pos (by omega)]
    simp [handler, hsel]
  · intro hm
    subst hm
    simp [selectTests, goSliceTake]
  · intro h1 h2
    have hm0 : ¬ m = 0 := by omega
    simp only [selectTests, goSliceTake, if_neg hm0]
    rw [if_neg (by omega)]

/-- C10 witness: the theorem applied with two fetched tests: MaxFileCount
5 panics before the recipient stage, 0 selects both tests, 1 selects
exactly the first. -/
theorem handler_max_file_count_slice_witness :
    (((([mkTest 1, mkTest 2] : List KnowBe4SecurityTest).length : Int) < 5 ∨
        (5 : Int) < 0) ∧
      handler ⟨.ok (), .ok (), .ok (), .ok [mkTest 1, mkTest 2], .ok (), 5,
          fun _ => false⟩ =
        ([.initConfig, .campaigns, .groups, .securityTests, .saveTests],
          .panicked, [])) ∧
    selectTests [mkTest 1, mkTest 2] 0 = some [mkTest 1, mkTest 2] ∧
    selectTests [mkTest 1, mkTest 2] 1 = some [mkTest 1] := by
  refine ⟨⟨by decide, ?_⟩, ?_, ?_⟩
  · exact (handler_max_file_count_slice [mkTest 1, mkTest 2] (fun _ => false) 5).1
      (by decide)
  · exact (handler_max_file_count_slice [mkTest 1, mkTest 2] (fun _ => false) 0).2.1 rfl
  · have h := (handler_max_file_count_slice [mkTest 1, mkTest 2] (fun _ => false) 1).2.2
      (by decide) (by decide)
    simpa using h
